import Mathlib

/-!
Verification of the fraud graph engine of the RiskChain insurance-claim
repository: entity graph + risk scoring (backend), and the 3D graph
component's search/highlight and force-directed layout
(frontend/components/RiskNetworkGraph3D.tsx).

Sections:
1. String helpers mirroring the JavaScript primitives used by the source
   (toLowerCase, trim, includes, startsWith, `||` on strings).
2. Backend entity-graph and risk-scoring model.  The backend file
   `graph_service.py` is not part of the source snapshot (only its
   documentation is), so these definitions are modelled from the spec.
3. The frontend dashboard's risk badge function (real source).
4. The frontend graph data model and the search/highlight computation of
   RiskNetworkGraph3D.tsx, embedded as a pure function.
5. The layout engine (spherical seeding + 50-iteration relaxation) of
   RiskNetworkGraph3D.tsx over the reals.
-/

/-! ## Section 1: string helpers -/

/-- Whitespace test used by `strTrim`, mirroring JavaScript `String.trim`
for the ASCII whitespace characters. -/
def isWsChar (c : Char) : Bool :=
  c == ' ' || c == '\t' || c == '\n' || c == '\r'

/-- `listIsPre p l` holds when the character list `p` is an initial
segment of `l`. -/
def listIsPre : List Char → List Char → Bool
  | [], _ => true
  | _ :: _, [] => false
  | a :: ps, b :: ls => a == b && listIsPre ps ls

/-- `listHasInfix l n` holds when `n` occurs contiguously inside `l`
(JavaScript `String.includes` on character lists). -/
def listHasInfix (n : List Char) : List Char → Bool
  | [] => listIsPre n []
  | c :: t => listIsPre n (c :: t) || listHasInfix n t

/-- JavaScript `s.includes(q)`: `q` occurs as a substring of `s`. -/
def strIncludes (s q : String) : Bool :=
  listHasInfix q.toList s.toList

/-- JavaScript `s.toLowerCase()` (ASCII case folding). -/
def strLower (s : String) : String :=
  String.mk (s.toList.map Char.toLower)

/-- JavaScript `s.trim()`: strip whitespace from both ends. -/
def strTrim (s : String) : String :=
  String.mk (((s.toList.dropWhile isWsChar).reverse.dropWhile isWsChar).reverse)

/-- JavaScript `s.startsWith(p)`. -/
def strStarts (s p : String) : Bool :=
  listIsPre p.toList s.toList

/-- JavaScript `a || b` on strings: `b` when `a` is empty (falsy),
otherwise `a`. -/
def strOrElse (a b : String) : String :=
  if a = "" then b else a

/-! ## Section 2: backend entity graph and risk scoring

`backend/graph_service.py` is not in the source snapshot; only its
documentation (`README`, risk-score calculation notes) is.  Everything in
this section is therefore modelled from the spec (sections 3, 4.1, 4.2). -/

/-- Modelled from the spec: the node kinds of the entity graph
(`claim`, `doctor`, `lawyer`, `ip`, `person`); `graph_service.py` itself
is missing from the source snapshot. -/
inductive SKind where
  | claim
  | doctor
  | lawyer
  | ip
  | person
deriving DecidableEq

/-- Kind tag used in node ids and edge types. -/
def kindStr : SKind → String
  | .claim => "claim"
  | .doctor => "doctor"
  | .lawyer => "lawyer"
  | .ip => "ip"
  | .person => "person"

/-- Modelled from the spec: a graph node (`id`, `kind`, display label /
entity value). -/
structure SNode where
  id : String
  kind : SKind
  label : String
deriving DecidableEq

/-- Modelled from the spec: an undirected edge, stored with the claim
side as `source`; deduplicated by `(source, target, edge_type)`. -/
structure SEdge where
  source : String
  target : String
  edge_type : String
deriving DecidableEq

/-- Modelled from the spec: the entity graph store. -/
structure SGraph where
  nodes : List SNode
  edges : List SEdge
deriving DecidableEq

def emptySGraph : SGraph := ⟨[], []⟩

/-- Modelled from the spec: an ingested claim record (required identity
fields plus the optional entity references and intrinsic signals). -/
structure SClaim where
  claim_id : String
  claimant_name : String
  doctor : Option String := none
  lawyer : Option String := none
  ip_address : Option String := none
  missing_docs : List String := []
  fraud_nlp_score : Int := 0
deriving DecidableEq

/-- Entity nodes are deduplicated by `(kind, entity_value)`; the node id
encodes both. -/
def entityId (k : SKind) (v : String) : String :=
  kindStr k ++ "_" ++ v

def hasNode (g : SGraph) (nid : String) : Bool :=
  g.nodes.any (fun n => n.id == nid)

def addNodeIfAbsent (g : SGraph) (nid : String) (k : SKind) (label : String) : SGraph :=
  if hasNode g nid then g else ⟨g.nodes ++ [⟨nid, k, label⟩], g.edges⟩

def hasEdge (g : SGraph) (s t ty : String) : Bool :=
  g.edges.any (fun e => e.source == s && e.target == t && e.edge_type == ty)

def addEdgeIfAbsent (g : SGraph) (s t ty : String) : SGraph :=
  if hasEdge g s t ty then g else ⟨g.nodes, g.edges ++ [⟨s, t, ty⟩]⟩

/-- The claims currently attached to the entity node `eid` by a
`claim_<kind>` edge. -/
def claimsAt (g : SGraph) (eid : String) (k : SKind) : List String :=
  (g.edges.filter (fun e => e.target == eid && e.edge_type == ("claim_" ++ kindStr k))).map
    (fun e => e.source)

/-- Modelled from the spec: attach one optional entity field of a claim.
For a non-empty value: create/reuse the entity node, insert the
`claim_<kind>` edge if absent, and insert a `shared_<kind>` edge between
this claim and each prior claim already sharing the entity. -/
def addEntity (g : SGraph) (cid : String) (k : SKind) (v : Option String) : SGraph :=
  match v with
  | none => g
  | some value =>
    if value = "" then g
    else
      let eid := entityId k value
      let g1 := addNodeIfAbsent g eid k value
      let prior := claimsAt g1 eid k
      let g2 := addEdgeIfAbsent g1 cid eid ("claim_" ++ kindStr k)
      prior.foldl
        (fun acc oc => if oc = cid then acc else addEdgeIfAbsent acc cid oc ("shared_" ++ kindStr k))
        g2

/-- Modelled from the spec (4.1): `add_claim` creates/reuses the claim
node, its claimant `person` node and edge, and each declared entity. -/
def add_claim (g : SGraph) (c : SClaim) : SGraph :=
  let cid := "claim_" ++ c.claim_id
  let g1 := addNodeIfAbsent g cid .claim c.claim_id
  let pid := entityId .person c.claimant_name
  let g2 := addNodeIfAbsent g1 pid .person c.claimant_name
  let g3 := addEdgeIfAbsent g2 cid pid "claim_person"
  let g4 := addEntity g3 cid .doctor c.doctor
  let g5 := addEntity g4 cid .lawyer c.lawyer
  addEntity g5 cid .ip c.ip_address

/-- Degree of a node: count of incident edges, recomputed from the edge
set (never cached). -/
def degree (g : SGraph) (nid : String) : Nat :=
  (g.edges.filter (fun e => e.source == nid || e.target == nid)).length

/-- Modelled from the spec: +40 when the claim's doctor node has
degree > 4. -/
def doctorMillBonus (g : SGraph) (c : SClaim) : Int :=
  match c.doctor with
  | none => 0
  | some d => if d = "" then 0 else if degree g (entityId .doctor d) > 4 then 40 else 0

/-- Modelled from the spec: +25 when the claim's IP node has degree > 2. -/
def sharedIpBonus (g : SGraph) (c : SClaim) : Int :=
  match c.ip_address with
  | none => 0
  | some v => if v = "" then 0 else if degree g (entityId .ip v) > 2 then 25 else 0

/-- Modelled from the spec: +15 when the claim's lawyer node has
degree > 3. -/
def lawyerBonus (g : SGraph) (c : SClaim) : Int :=
  match c.lawyer with
  | none => 0
  | some v => if v = "" then 0 else if degree g (entityId .lawyer v) > 3 then 15 else 0

/-- Modelled from the spec: +10 when `missing_docs` is non-empty. -/
def missingDocsBonus (c : SClaim) : Int :=
  if c.missing_docs = [] then 0 else 10

/-- Modelled from the spec: the external NLP signal (0-20 input)
linearly scaled to the 0..10 contribution. -/
def nlpBonus (c : SClaim) : Int :=
  max 0 (min 10 (c.fraud_nlp_score / 2))

/-- The additive rule-score before clamping. -/
def riskSum (g : SGraph) (c : SClaim) : Int :=
  doctorMillBonus g c + sharedIpBonus g c + lawyerBonus g c +
    missingDocsBonus c + nlpBonus c

/-- Modelled from the spec (4.2): the composite risk score, clamped to
`[0, 100]`. -/
def calculate_risk_score (g : SGraph) (c : SClaim) : Int :=
  max 0 (min 100 (riskSum g c))

/-- Modelled from the spec (4.2): the risk category as a pure function
of the score, with the exact boundary of the source
(`< 30` low, `<= 70` medium, otherwise high). -/
def get_risk_category (s : Int) : String :=
  if s < 30 then "low" else if s ≤ 70 then "medium" else "high"

/-- Modelled from the spec (4.1, 7): end-to-end ingestion; rejects a
claim with a missing identity field before any mutation, otherwise adds
the claim and scores it against the updated graph. -/
def process_claim (g : SGraph) (c : SClaim) : Except String (SGraph × Int × String) :=
  if c.claim_id = "" ∨ c.claimant_name = "" then .error "InvalidClaim"
  else
    let g1 := add_claim g c
    let s := calculate_risk_score g1 c
    .ok (g1, s, get_risk_category s)

/-! ### Concrete ring scenario (spec section 8) -/

/-- A ring-scenario claim sharing doctor, lawyer and IP. -/
def ringClaim (i p : String) : SClaim :=
  { claim_id := i, claimant_name := p, doctor := some "Dr. Chen",
    lawyer := some "Attorney Rodriguez", ip_address := some "192.168.1.50" }

def ringC1 : SClaim := ringClaim "C1" "Pat One"

def ringC2 : SClaim := ringClaim "C2" "Pat Two"

def ringC3 : SClaim := ringClaim "C3" "Pat Three"

def ringC4 : SClaim := ringClaim "C4" "Pat Four"

/-- The fifth claim shares only the doctor. -/
def ringC5 : SClaim := { claim_id := "C5", claimant_name := "Pat Five", doctor := some "Dr. Chen" }

/-- Graph after ingesting the first four ring claims. -/
def gRing4 : SGraph :=
  add_claim (add_claim (add_claim (add_claim emptySGraph ringC1) ringC2) ringC3) ringC4

/-- Graph after additionally ingesting the fifth claim. -/
def gRing5 : SGraph := add_claim gRing4 ringC5

/-! ## Section 3: frontend risk badge (dashboard source) -/

/-- From the dashboard source: badge colour for a risk score, using the
same `< 30` / `<= 70` / `> 70` boundary as the category. -/
def getRiskBadgeColor (riskScore : Int) : String :=
  if riskScore < 30 then "bg-emerald-500 text-white"
  else if riskScore ≤ 70 then "bg-amber-500 text-white"
  else "bg-red-500 text-white"

/-! ## Section 4: frontend graph data model and search/highlight

Embedded from `frontend/components/RiskNetworkGraph3D.tsx`.  The
search/highlight effect is a pure function of the query string and the
fetched node/edge lists; the JavaScript `Set`s are modelled as
duplicate-free lists (membership plus insertion order), and the
`Map` lookups as association lookups. -/

/-- `GraphNode` of RiskNetworkGraph3D.tsx; optional fields are the
TypeScript optional fields. -/
structure GraphNode where
  id : String
  type : String
  label : String
  risk_score : Option Int := none
  risk_category : Option String := none
  claimant_name : Option String := none
  status : Option String := none
  entity_value : Option String := none
deriving DecidableEq

/-- `GraphEdge` of RiskNetworkGraph3D.tsx. -/
structure GraphEdge where
  id : String
  source : String
  target : String
  type : String
  relationship : String
deriving DecidableEq

/-- `ConnectionInfo` of RiskNetworkGraph3D.tsx. -/
structure ConnectionInfo where
  nodeId : String
  nodeLabel : String
  nodeType : String
  connectionType : String
  relationship : String
  riskScore : Option Int := none
  riskCategory : Option String := none
  claimantName : Option String := none
  sharedEntity : String := ""
  sharedEntityType : String := ""
  suspiciousReason : String := ""
deriving DecidableEq

/-- JavaScript `Set.add`, on a duplicate-free list. -/
def setAdd (s : List String) (x : String) : List String :=
  if x ∈ s then s else s ++ [x]

/-- `nodeMap.get`: the map is filled by `forEach` insertion, so the last
node carrying a given id wins. -/
def lookupNode (ns : List GraphNode) (nid : String) : Option GraphNode :=
  ns.foldl (fun acc n => if n.id = nid then some n else acc) none

/-- The per-node match test of the search effect: case-insensitive
substring match of the (already lowercased and trimmed) query against
`label`, `claimant_name` and `entity_value`, absent fields read as `""`. -/
def matchesQuery (q : String) (n : GraphNode) : Bool :=
  strIncludes (strLower n.label) q ||
  strIncludes (strLower (n.claimant_name.getD "")) q ||
  strIncludes (strLower (n.entity_value.getD "")) q

/-- The matched-id set (`matchingNodes`), in insertion order. -/
def matchedIds (q : String) (ns : List GraphNode) : List String :=
  ns.foldl (fun m n => if matchesQuery q n then setAdd m n.id else m) []

/-- First pass over the edges (`claimSharedEntities`): the claims
attached to entity node `nid` by a claim-to-entity edge whose entity
node exists in the node map. -/
def entityClaims (ns : List GraphNode) (es : List GraphEdge) (nid : String) : List String :=
  (es.filter (fun e =>
      strStarts e.source "claim_" && !(strStarts e.target "claim_") &&
      e.target == nid && (lookupNode ns e.target).isSome)).map (fun e => e.source)

/-- `sharedInfo?.claims.length || 1`. -/
def entityClaimCount (ns : List GraphNode) (es : List GraphEdge) (nid : String) : Nat :=
  let l := entityClaims ns es nid
  if l.isEmpty then 1 else l.length

/-- The `ConnectionInfo` pushed for a connected neighbour `cn`, or
`none` for an IP-kind neighbour (the source returns early from the loop
body, pushing nothing). -/
def connFor (ns : List GraphNode) (es : List GraphEdge) (e : GraphEdge) (cid : String)
    (cn : GraphNode) : Option ConnectionInfo :=
  let base : ConnectionInfo :=
    { nodeId := cid,
      nodeLabel := strOrElse cn.label (strOrElse (cn.entity_value.getD "") cid),
      nodeType := cn.type,
      connectionType := e.type,
      relationship := strOrElse e.relationship e.type,
      riskScore := cn.risk_score,
      riskCategory := cn.risk_category,
      claimantName := cn.claimant_name }
  if cn.type = "doctor" then
    let cc := entityClaimCount ns es cid
    some { base with
      connectionType := "Shared Doctor",
      sharedEntity := strOrElse (cn.entity_value.getD "") cn.label,
      sharedEntityType := "Doctor/Provider",
      suspiciousReason :=
        if cc > 1 then
          "Same doctor across " ++ toString cc ++ " claims - potential provider fraud ring"
        else "Medical provider connection" }
  else if cn.type = "lawyer" then
    let cc := entityClaimCount ns es cid
    some { base with
      connectionType := "Shared Lawyer",
      sharedEntity := strOrElse (cn.entity_value.getD "") cn.label,
      sharedEntityType := "Attorney",
      suspiciousReason :=
        if cc > 1 then
          "Same attorney handling " ++ toString cc ++ " claims - potential organized fraud"
        else "Legal representation connection" }
  else if cn.type = "ip" then none
  else if cn.type = "person" then
    some { base with
      connectionType := "Same Person",
      sharedEntity := strOrElse (cn.entity_value.getD "") cn.label,
      sharedEntityType := "Person",
      suspiciousReason := "Same claimant identity" }
  else if cn.type = "claim" then
    let riskLevel := strOrElse (cn.risk_category.getD "") "unknown"
    some { base with
      connectionType := "Linked Claim",
      sharedEntity := strOrElse cn.label "",
      sharedEntityType := "Related Claim",
      suspiciousReason :=
        if riskLevel = "high" then "Connected to HIGH RISK claim - investigate relationship"
        else if riskLevel = "medium" then "Connected to medium risk claim"
        else "Related claim in network" }
  else some base

/-- State threaded through the one-hop-expansion loop over the edges. -/
structure ExpandState where
  connected : List String
  keys : List String
  conns : List ConnectionInfo
deriving DecidableEq

/-- The explanation-list part of one expansion-loop body: push a
`ConnectionInfo` for the non-matched endpoint when that endpoint exists
in the node map, is not itself matched, and is not IP-kind. -/
def stepConnsAt (ns : List GraphNode) (es : List GraphEdge) (matched : List String)
    (conns : List ConnectionInfo) (e : GraphEdge) (cid : String) : List ConnectionInfo :=
  match lookupNode ns cid with
  | none => conns
  | some cn =>
    if cid ∈ matched then conns
    else
      match connFor ns es e cid cn with
      | none => conns
      | some c => conns ++ [c]

def stepConns (ns : List GraphNode) (es : List GraphEdge) (matched : List String)
    (conns : List ConnectionInfo) (e : GraphEdge) : List ConnectionInfo :=
  stepConnsAt ns es matched conns e (if e.source ∈ matched then e.target else e.source)

/-- One edge of the expansion loop: if the edge touches a matched node,
add both endpoints to `connected` and both orientations of the edge key
to `connectedEdges`, and push the neighbour's explanation entry. -/
def expandStep (ns : List GraphNode) (es : List GraphEdge) (matched : List String)
    (st : ExpandState) (e : GraphEdge) : ExpandState :=
  if e.source ∈ matched ∨ e.target ∈ matched then
    ⟨setAdd (setAdd st.connected e.target) e.source,
     setAdd (setAdd st.keys (e.source ++ "-" ++ e.target)) (e.target ++ "-" ++ e.source),
     stepConns ns es matched st.conns e⟩
  else st

/-- The full expansion pass; `connected` starts as the matched set
(matching nodes were added to both sets in the node pass). -/
def expand (ns : List GraphNode) (es : List GraphEdge) (matched : List String) : ExpandState :=
  es.foldl (expandStep ns es matched) ⟨matched, [], []⟩

/-- Keep the first entry produced for each `nodeId`
(`filter((conn, i, self) => i === self.findIndex(c => c.nodeId === conn.nodeId))`). -/
def dedupByIdAux (seen : List String) : List ConnectionInfo → List ConnectionInfo
  | [] => []
  | c :: t =>
    if c.nodeId ∈ seen then dedupByIdAux seen t
    else c :: dedupByIdAux (c.nodeId :: seen) t

/-- `uniqueConnections`: dedup by nodeId keeping the first entry, then
`slice(0, 50)`. -/
def uniqueConns (l : List ConnectionInfo) : List ConnectionInfo :=
  (dedupByIdAux [] l).take 50

/-- The outcome of the search effect. -/
structure SearchResult where
  matched : List String
  connected : List String
  connectedEdges : List String
  connections : List ConnectionInfo
deriving DecidableEq

/-- The raw (pre-dedup) explanation list produced by the expansion. -/
def rawConns (q : String) (ns : List GraphNode) (es : List GraphEdge) : List ConnectionInfo :=
  (expand ns es (matchedIds (strTrim (strLower q)) ns)).conns

/-- The search/highlight effect of RiskNetworkGraph3D.tsx as a pure
function: an empty or whitespace-only query yields empty sets (the
caller then shows everything); otherwise the query is lowercased and
trimmed, matched against every node, and expanded one hop. -/
def search (searchQuery : String) (ns : List GraphNode) (es : List GraphEdge) : SearchResult :=
  if strTrim searchQuery = "" then ⟨[], [], [], []⟩
  else
    let query := strTrim (strLower searchQuery)
    let matched := matchedIds query ns
    let st := expand ns es matched
    ⟨matched, st.connected, st.keys, uniqueConns st.conns⟩

/-! ### Concrete graphs used as evaluation inputs -/

/-- A claim node matched by the query "alpha". -/
def cxNodeA : GraphNode := { id := "claim_1", type := "claim", label := "alpha one" }

/-- An IP entity node. -/
def cxNodeIp : GraphNode :=
  { id := "ip_1", type := "ip", label := "192.168.1.50", entity_value := some "192.168.1.50" }

/-- The claim-to-IP edge of the concrete graph. -/
def cxEdgeIp : GraphEdge :=
  { id := "e1", source := "claim_1", target := "ip_1", type := "claim_ip",
    relationship := "submitted from" }

def cxNs : List GraphNode := [cxNodeA, cxNodeIp]

def cxEs : List GraphEdge := [cxEdgeIp]

/-- A node whose label contains the trimmed query "chen" but not the
raw padded query "chen ". -/
def cx5Node : GraphNode := { id := "n1", type := "claim", label := "chenx" }

/-! ## Section 5: layout engine

Embedded from the force-directed layout of RiskNetworkGraph3D.tsx.  The
JavaScript floating-point vectors are modelled over the reals; the
`Map`s of positions and forces are association lists keyed by node id
(`Map.set` overwrites, `Map.get` may miss). -/

/-- A THREE.Vector3. -/
structure Vec3 where
  x : ℝ
  y : ℝ
  z : ℝ

noncomputable def vadd (a b : Vec3) : Vec3 := ⟨a.x + b.x, a.y + b.y, a.z + b.z⟩

noncomputable def vsub (a b : Vec3) : Vec3 := ⟨a.x - b.x, a.y - b.y, a.z - b.z⟩

noncomputable def vscale (k : ℝ) (v : Vec3) : Vec3 := ⟨k * v.x, k * v.y, k * v.z⟩

noncomputable def vlen (v : Vec3) : ℝ := Real.sqrt (v.x ^ 2 + v.y ^ 2 + v.z ^ 2)

noncomputable def vzero : Vec3 := ⟨0, 0, 0⟩

/-- `THREE.Vector3.normalize`: divide by `length() || 1` (the guard is
built into the library). -/
noncomputable def vnorm (v : Vec3) : Vec3 :=
  vscale (1 / (if vlen v = 0 then 1 else vlen v)) v

/-- `const distance = diff.length() || 0.1`: a computed distance of zero
is replaced by `0.1` before any use as a divisor. -/
noncomputable def vlenOr (v : Vec3) : ℝ :=
  if vlen v = 0 then 0.1 else vlen v

/-- `Math.max(30, Math.sqrt(nodeCount) * 2)`. -/
noncomputable def seedRadius (n : ℕ) : ℝ := max 30 (Real.sqrt n * 2)

/-- The golden angle spiral angle `index * 2.399963229728653`. -/
noncomputable def seedTheta (i : ℕ) : ℝ := (i : ℝ) * 2.399963229728653

/-- `const y = (1 - (index / nodeCount) * 2) * radius`. -/
noncomputable def seedY (n i : ℕ) : ℝ :=
  (1 - ((i : ℝ) / (n : ℝ)) * 2) * seedRadius n

/-- The seeded position of node `i` of `n`: golden-angle spiral point on
the sphere of radius `seedRadius n`. -/
noncomputable def seedPos (n i : ℕ) : Vec3 :=
  let r := seedRadius n
  let y := seedY n i
  let ra := Real.sqrt (r * r - y * y)
  ⟨Real.cos (seedTheta i) * ra, y, Real.sin (seedTheta i) * ra⟩

/-- `Map.set` on an association list: overwrite the existing binding or
append a new one. -/
def assocSet (m : List (String × Vec3)) (k : String) (v : Vec3) : List (String × Vec3) :=
  match m with
  | [] => [(k, v)]
  | (k2, v2) :: t => if k2 = k then (k, v) :: t else (k2, v2) :: assocSet t k v

/-- `Map.get` on an association list. -/
def assocGet (m : List (String × Vec3)) (k : String) : Option Vec3 :=
  match m with
  | [] => none
  | (k2, v) :: t => if k2 = k then some v else assocGet t k

/-- The seeding pass: `graphData.nodes.forEach((node, index) => ...)`. -/
noncomputable def seedAssoc (nodes : List GraphNode) : List (String × Vec3) :=
  (nodes.enum).foldl (fun m p => assocSet m p.2.id (seedPos nodes.length p.1)) []

/-- Fresh per-iteration force map, zero for every node id. -/
noncomputable def forcesInit (nodes : List GraphNode) : List (String × Vec3) :=
  nodes.foldl (fun m nd => assocSet m nd.id vzero) []

/-- `forces.get(id)!.add(v)`: the source asserts presence; every
accessed id is a node id, for which the map was initialised, so the
`none` branch is unreachable. -/
noncomputable def addForce (m : List (String × Vec3)) (k : String) (v : Vec3) :
    List (String × Vec3) :=
  match assocGet m k with
  | some w => assocSet m k (vadd w v)
  | none => m

/-- One repulsion pair: applied only when the (guarded) distance is
below 10, with force `0.1 / d²` along the normalised difference. -/
noncomputable def repulsionPair (ps fs : List (String × Vec3)) (a b : GraphNode) :
    List (String × Vec3) :=
  match assocGet ps a.id with
  | none => fs
  | some p1 =>
    match assocGet ps b.id with
    | none => fs
    | some p2 =>
      let diff := vsub p1 p2
      let d := vlenOr diff
      if d < 10 then
        let f := vscale (0.1 / (d * d)) (vnorm diff)
        addForce (addForce fs a.id f) b.id (vscale (-1) f)
      else fs

/-- The bounded repulsion double loop: `i < min(100, N)`,
`j ∈ [i+1, min(i+20, N))`. -/
noncomputable def repulsionForces (nodes : List GraphNode) (ps fs : List (String × Vec3)) :
    List (String × Vec3) :=
  let len := nodes.length
  let maxChecks := min 100 len
  (List.range maxChecks).foldl
    (fun fs1 i =>
      ((List.range (min (i + 20) len)).drop (i + 1)).foldl
        (fun fs2 j =>
          match nodes[i]?, nodes[j]? with
          | some a, some b => repulsionPair ps fs2 a b
          | _, _ => fs2)
        fs1)
    fs

/-- One edge of the attraction pass: edges whose endpoints both have a
seeded position pull them together with force `d * 0.01`; an edge with
a missing endpoint position is skipped. -/
noncomputable def edgeForce (ps fs : List (String × Vec3)) (e : GraphEdge) :
    List (String × Vec3) :=
  match assocGet ps e.source with
  | none => fs
  | some p1 =>
    match assocGet ps e.target with
    | none => fs
    | some p2 =>
      let diff := vsub p2 p1
      let d := vlenOr diff
      let f := vscale (d * 0.01) (vnorm diff)
      addForce (addForce fs e.source f) e.target (vscale (-1) f)

noncomputable def attractionForces (edges : List GraphEdge) (ps fs : List (String × Vec3)) :
    List (String × Vec3) :=
  edges.foldl (edgeForce ps) fs

/-- Apply the accumulated forces: each node position moves by `0.1`
times its net force.  (The source then scales the per-iteration force
by `0.9`, but the force map is discarded, so this has no effect.) -/
noncomputable def applyForces (ps fs : List (String × Vec3)) : List (String × Vec3) :=
  fs.foldl
    (fun acc kf =>
      match assocGet acc kf.1 with
      | some p => assocSet acc kf.1 (vadd p (vscale 0.1 kf.2))
      | none => acc)
    ps

/-- One iteration of the relaxation loop. -/
noncomputable def layoutStep (nodes : List GraphNode) (edges : List GraphEdge)
    (ps : List (String × Vec3)) : List (String × Vec3) :=
  applyForces ps (attractionForces edges ps (repulsionForces nodes ps (forcesInit nodes)))

/-- The full layout: golden-angle seeding followed by 50 relaxation
iterations.  A pure function of the node and edge lists. -/
noncomputable def layout (nodes : List GraphNode) (edges : List GraphEdge) :
    List (String × Vec3) :=
  Nat.iterate (layoutStep nodes edges) 50 (seedAssoc nodes)

/-! ## Theorems -/
/-- C1: for every graph state and claim, the computed risk score lies in
`[0, 100]`; the risk category is a pure function of the score with the
exact boundary `score < 30 ↔ low`, `30 ≤ score ≤ 70 ↔ medium`,
`score > 70 ↔ high` (so 30 and 70 are both medium); the category stored
by ingestion is exactly that function of the stored score; and the
dashboard badge colour follows the same boundary. -/
theorem risk_score_bounds_and_category :
    (∀ (g : SGraph) (c : SClaim),
      0 ≤ calculate_risk_score g c ∧ calculate_risk_score g c ≤ 100) ∧
    (∀ s : Int,
      (get_risk_category s = "low" ↔ s < 30) ∧
      (get_risk_category s = "medium" ↔ 30 ≤ s ∧ s ≤ 70) ∧
      (get_risk_category s = "high" ↔ 70 < s)) ∧
    (∀ (g : SGraph) (c : SClaim) (g1 : SGraph) (sc : Int) (cat : String),
      process_claim g c = .ok (g1, sc, cat) → cat = get_risk_category sc) ∧
    (∀ s : Int,
      (getRiskBadgeColor s = "bg-emerald-500 text-white" ↔ get_risk_category s = "low") ∧
      (getRiskBadgeColor s = "bg-amber-500 text-white" ↔ get_risk_category s = "medium") ∧
      (getRiskBadgeColor s = "bg-red-500 text-white" ↔ get_risk_category s = "high")) := by
  refine ⟨fun g c => ⟨le_max_left 0 _, ?_⟩, fun s => ⟨?_, ?_, ?_⟩, ?_, fun s => ⟨?_, ?_, ?_⟩⟩
  · exact max_le (by norm_num) (min_le_left 100 _)
  · unfold get_risk_category
    split_ifs with h1 h2 <;> simp_all
  · unfold get_risk_category
    split_ifs with h1 h2 <;> simp_all
  · unfold get_risk_category
    split_ifs with h1 h2 <;> simp_all
    omega
  · intro g c g1 sc cat h
    unfold process_claim at h
    split_ifs at h with h1
    simp only [Except.ok.injEq, Prod.mk.injEq] at h
    exact h.2.2.symm.trans (by rw [h.2.1])
  · unfold getRiskBadgeColor get_risk_category
    split_ifs <;> simp_all
  · unfold getRiskBadgeColor get_risk_category
    split_ifs <;> simp_all
  · unfold getRiskBadgeColor get_risk_category
    split_ifs <;> simp_all


/-- C2: in the ring scenario, the doctor node has degree 4 after the
first four ingestions (not above the `> 4` trigger, so no +40 bonus for
any of them), and after the fifth claim sharing only the doctor the
degree is 5, the fifth claim's score includes the +40 doctor fraud-mill
bonus (its total score is exactly 40), and re-scoring the first claim
against the updated graph also yields the +40 bonus. -/
theorem ring_scenario_doctor_mill :
    degree gRing4 (entityId .doctor "Dr. Chen") = 4 ∧
    ¬ degree gRing4 (entityId .doctor "Dr. Chen") > 4 ∧
    doctorMillBonus gRing4 ringC1 = 0 ∧
    doctorMillBonus gRing4 ringC4 = 0 ∧
    degree gRing5 (entityId .doctor "Dr. Chen") = 5 ∧
    doctorMillBonus gRing5 ringC5 = 40 ∧
    calculate_risk_score gRing5 ringC5 = 40 ∧
    doctorMillBonus gRing5 ringC1 = 40 := by
  decide


/-! ### Search/highlight lemmas -/

theorem mem_setAdd_self (s : List String) (x : String) : x ∈ setAdd s x := by
  unfold setAdd
  split_ifs with h
  · exact h
  · simp

theorem mem_setAdd_of_mem {s : List String} {y : String} (x : String) (h : y ∈ s) :
    y ∈ setAdd s x := by
  unfold setAdd
  split_ifs with hx
  · exact h
  · simp [h]

theorem mem_setAdd_iff {s : List String} {x y : String} :
    y ∈ setAdd s x ↔ y ∈ s ∨ y = x := by
  unfold setAdd
  split_ifs with h
  · refine ⟨Or.inl, ?_⟩
    rintro (hy | rfl)
    · exact hy
    · exact h
  · simp

theorem mem_matchedIds_foldl (q : String) (ns : List GraphNode) :
    ∀ (acc : List String) (x : String),
      (x ∈ ns.foldl (fun m n => if matchesQuery q n then setAdd m n.id else m) acc ↔
        x ∈ acc ∨ ∃ n ∈ ns, n.id = x ∧ matchesQuery q n = true) := by
  induction ns with
  | nil => intro acc x; simp
  | cons n t ih =>
    intro acc x
    simp only [List.foldl_cons]
    rw [ih]
    by_cases h : matchesQuery q n
    · simp only [h, if_true, mem_setAdd_iff, List.mem_cons]
      constructor
      · rintro ((hx | rfl) | ⟨m, hm, rfl, hmq⟩)
        · exact Or.inl hx
        · exact Or.inr ⟨n, Or.inl rfl, rfl, h⟩
        · exact Or.inr ⟨m, Or.inr hm, rfl, hmq⟩
      · rintro (hx | ⟨m, hm | hm, rfl, hmq⟩)
        · exact Or.inl (Or.inl hx)
        · exact Or.inl (Or.inr (by rw [hm]))
        · exact Or.inr ⟨m, hm, rfl, hmq⟩
    · simp only [h, if_false, List.mem_cons]
      constructor
      · rintro (hx | ⟨m, hm, rfl, hmq⟩)
        · exact Or.inl hx
        · exact Or.inr ⟨m, Or.inr hm, rfl, hmq⟩
      · rintro (hx | ⟨m, hm | hm, rfl, hmq⟩)
        · exact Or.inl hx
        · exact absurd hmq (by rw [hm]; exact h)
        · exact Or.inr ⟨m, hm, rfl, hmq⟩

theorem mem_matchedIds {q : String} {ns : List GraphNode} {x : String} :
    x ∈ matchedIds q ns ↔ ∃ n ∈ ns, n.id = x ∧ matchesQuery q n = true := by
  unfold matchedIds
  rw [mem_matchedIds_foldl]
  simp

theorem expandStep_connected_mono {ns : List GraphNode} {es : List GraphEdge}
    {m : List String} {st : ExpandState} {e : GraphEdge} {x : String}
    (h : x ∈ st.connected) : x ∈ (expandStep ns es m st e).connected := by
  unfold expandStep
  split_ifs with hc
  · exact mem_setAdd_of_mem _ (mem_setAdd_of_mem _ h)
  · exact h

theorem expandStep_keys_mono {ns : List GraphNode} {es : List GraphEdge}
    {m : List String} {st : ExpandState} {e : GraphEdge} {x : String}
    (h : x ∈ st.keys) : x ∈ (expandStep ns es m st e).keys := by
  unfold expandStep
  split_ifs with hc
  · exact mem_setAdd_of_mem _ (mem_setAdd_of_mem _ h)
  · exact h

theorem foldl_expand_connected_mono {ns : List GraphNode} {es : List GraphEdge}
    {m : List String} {x : String} :
    ∀ (l : List GraphEdge) (st : ExpandState), x ∈ st.connected →
      x ∈ (l.foldl (expandStep ns es m) st).connected := by
  intro l
  induction l with
  | nil => intro st h; exact h
  | cons e t ih => intro st h; exact ih _ (expandStep_connected_mono h)

theorem foldl_expand_keys_mono {ns : List GraphNode} {es : List GraphEdge}
    {m : List String} {x : String} :
    ∀ (l : List GraphEdge) (st : ExpandState), x ∈ st.keys →
      x ∈ (l.foldl (expandStep ns es m) st).keys := by
  intro l
  induction l with
  | nil => intro st h; exact h
  | cons e t ih => intro st h; exact ih _ (expandStep_keys_mono h)

/-! ### Claim C9, C4, C5 -/

/-- C9: for every non-empty query, every id in the matched set is also
in the connected set, so a matched node is never classified as hidden by
the render-visibility partition. -/
theorem matched_subset_connected (q : String) (ns : List GraphNode) (es : List GraphEdge)
    (x : String) (h : x ∈ (search q ns es).matched) : x ∈ (search q ns es).connected := by
  unfold search at h ⊢
  split_ifs at h ⊢ with hq
  · simp at h
  · exact foldl_expand_connected_mono es ⟨_, [], []⟩ h

/-- C9 witness at a concrete graph and query. -/
theorem matched_subset_connected_witness :
    "claim_1" ∈ (search "alpha" cxNs cxEs).matched ∧
    "claim_1" ∈ (search "alpha" cxNs cxEs).connected :=
  ⟨by decide, matched_subset_connected "alpha" cxNs cxEs "claim_1" (by decide)⟩

/-- C4: an empty or whitespace-only query yields empty matched,
connected, connectedEdges and explanation lists; the caller shows
everything.  `search` is total, so no query string is an error. -/
theorem empty_query_empty_result (q : String) (ns : List GraphNode) (es : List GraphEdge)
    (hq : strTrim q = "") : search q ns es = ⟨[], [], [], []⟩ := by
  unfold search
  rw [if_pos hq]

/-- C4 witness on a whitespace-only query. -/
theorem empty_query_empty_result_witness :
    strTrim "   " = "" ∧ search "   " cxNs cxEs = ⟨[], [], [], []⟩ :=
  ⟨by decide, empty_query_empty_result "   " cxNs cxEs (by decide)⟩

/-- C5 (amended): for a non-empty query, an id is in the matched set iff
some node carrying that id matches the lowercased and TRIMMED query by
case-insensitive substring match over `label`, `claimant_name` and
`entity_value` (absent fields read as the empty string). -/
theorem matched_iff_trimmed_substring (q : String) (ns : List GraphNode) (es : List GraphEdge)
    (x : String) (hq : strTrim q ≠ "") :
    x ∈ (search q ns es).matched ↔
      ∃ n ∈ ns, n.id = x ∧ matchesQuery (strTrim (strLower q)) n = true := by
  unfold search
  rw [if_neg hq]
  exact mem_matchedIds

/-- C5 witness: with query "chen" and a node labelled "chenx", the node
is matched and the substring characterisation holds. -/
theorem matched_iff_trimmed_substring_witness :
    strTrim "chen" ≠ "" ∧
    ("n1" ∈ (search "chen" [cx5Node] []).matched ↔
      ∃ n ∈ [cx5Node], n.id = "n1" ∧ matchesQuery (strTrim (strLower "chen")) n = true) :=
  ⟨by decide, matched_iff_trimmed_substring "chen" [cx5Node] [] "n1" (by decide)⟩

/-- C5 counterexample: the claim as stated (matching against the
lowercased query without trimming) fails for the padded query "chen ":
the node labelled "chenx" is matched by the code, yet the lowercased
query is not a substring of any of its three lowercased fields. -/
theorem matched_raw_query_cex :
    ("n1" ∈ (search "chen " [cx5Node] []).matched) ∧
    strIncludes (strLower cx5Node.label) (strLower "chen ") = false ∧
    strIncludes (strLower (cx5Node.claimant_name.getD "")) (strLower "chen ") = false ∧
    strIncludes (strLower (cx5Node.entity_value.getD "")) (strLower "chen ") = false := by
  decide

/-! ### Explanation-list lemmas -/

theorem connFor_ne_ip {ns : List GraphNode} {es : List GraphEdge} {e : GraphEdge}
    {cid : String} {cn : GraphNode} {c : ConnectionInfo}
    (h : connFor ns es e cid cn = some c) : c.nodeType ≠ "ip" := by
  simp only [connFor] at h
  by_cases h1 : cn.type = "doctor"
  · rw [if_pos h1] at h
    cases h
    show cn.type ≠ "ip"
    rw [h1]; decide
  · rw [if_neg h1] at h
    by_cases h2 : cn.type = "lawyer"
    · rw [if_pos h2] at h
      cases h
      show cn.type ≠ "ip"
      rw [h2]; decide
    · rw [if_neg h2] at h
      by_cases h3 : cn.type = "ip"
      · rw [if_pos h3] at h
        exact Option.noConfusion h
      · rw [if_neg h3] at h
        by_cases h4 : cn.type = "person"
        · rw [if_pos h4] at h
          cases h
          show cn.type ≠ "ip"
          rw [h4]; decide
        · rw [if_neg h4] at h
          by_cases h5 : cn.type = "claim"
          · rw [if_pos h5] at h
            cases h
            show cn.type ≠ "ip"
            rw [h5]; decide
          · rw [if_neg h5] at h
            cases h
            show cn.type ≠ "ip"
            exact h3

theorem mem_stepConnsAt {ns : List GraphNode} {es : List GraphEdge} {m : List String}
    {conns : List ConnectionInfo} {e : GraphEdge} {c : ConnectionInfo} {cid0 : String}
    (h : c ∈ stepConnsAt ns es m conns e cid0) :
    c ∈ conns ∨ ∃ cid cn, lookupNode ns cid = some cn ∧ connFor ns es e cid cn = some c := by
  unfold stepConnsAt at h
  split at h
  · exact Or.inl h
  · rename_i cn heq
    split_ifs at h with hm
    · exact Or.inl h
    · split at h
      · exact Or.inl h
      · rename_i c2 hc
        rcases List.mem_append.1 h with h1 | h1
        · exact Or.inl h1
        · rcases List.mem_singleton.1 h1 with rfl
          exact Or.inr ⟨_, cn, heq, hc⟩

theorem foldl_expand_conns_prop {ns : List GraphNode} {es : List GraphEdge} {m : List String}
    (P : ConnectionInfo → Prop)
    (hP : ∀ (e : GraphEdge) (cid : String) (cn : GraphNode) (c : ConnectionInfo),
      lookupNode ns cid = some cn → connFor ns es e cid cn = some c → P c) :
    ∀ (l : List GraphEdge) (st : ExpandState), (∀ c ∈ st.conns, P c) →
      ∀ c ∈ (l.foldl (expandStep ns es m) st).conns, P c := by
  intro l
  induction l with
  | nil => intro st h; exact h
  | cons e t ih =>
    intro st h
    refine ih _ ?_
    intro c hc
    unfold expandStep at hc
    split_ifs at hc with htouch
    · rcases mem_stepConnsAt (hc : c ∈ stepConnsAt ns es m st.conns e _) with
        h1 | ⟨cid, cn, hl, hcf⟩
      · exact h c h1
      · exact hP e cid cn c hl hcf
    · exact h c hc

theorem dedupByIdAux_sublist (l : List ConnectionInfo) :
    ∀ seen, List.Sublist (dedupByIdAux seen l) l := by
  induction l with
  | nil => intro seen; simp [dedupByIdAux]
  | cons c t ih =>
    intro seen
    unfold dedupByIdAux
    split_ifs with h
    · exact (ih seen).trans (List.sublist_cons_self c t)
    · exact List.Sublist.cons₂ c (ih _)

theorem dedupByIdAux_mem {c : ConnectionInfo} :
    ∀ (l : List ConnectionInfo) (seen : List String), c ∈ dedupByIdAux seen l →
      c.nodeId ∉ seen ∧ l.find? (fun d => d.nodeId == c.nodeId) = some c := by
  intro l
  induction l with
  | nil => intro seen h; simp [dedupByIdAux] at h
  | cons c0 t ih =>
    intro seen h
    unfold dedupByIdAux at h
    split_ifs at h with h0
    · obtain ⟨hns, hfind⟩ := ih seen h
      refine ⟨hns, ?_⟩
      rw [List.find?_cons_of_neg _ ?_, hfind]
      simp only [beq_iff_eq]
      intro he
      exact hns (he ▸ h0)
    · rcases List.mem_cons.1 h with rfl | hmem
      · refine ⟨h0, ?_⟩
        rw [List.find?_cons_of_pos _ (by simp)]
      · obtain ⟨hns, hfind⟩ := ih _ hmem
        have hne : c.nodeId ≠ c0.nodeId := fun he => hns (by simp [he])
        refine ⟨fun hs => hns (List.mem_cons_of_mem _ hs), ?_⟩
        rw [List.find?_cons_of_neg _ ?_, hfind]
        simp only [beq_iff_eq]
        exact fun he => hne he.symm

theorem dedupByIdAux_pairwise :
    ∀ (l : List ConnectionInfo) (seen : List String),
      (dedupByIdAux seen l).Pairwise (fun a b => a.nodeId ≠ b.nodeId) := by
  intro l
  induction l with
  | nil => intro seen; simp [dedupByIdAux]
  | cons c0 t ih =>
    intro seen
    unfold dedupByIdAux
    split_ifs with h0
    · exact ih seen
    · refine List.Pairwise.cons ?_ (ih _)
      intro b hb he
      exact (dedupByIdAux_mem _ _ hb).1 (by simp [← he])

/-! ### Claim C3 -/

/-- C3 (amended): for every non-empty query, every edge touching a
matched node contributes BOTH endpoints to the connected set and both
orientations of its key to connectedEdges, with no IP filtering at this
level; the IP exclusion applies only to the explanation list: no
`ConnectionInfo` entry ever has node type "ip". -/
theorem one_hop_expansion_and_ip (q : String) (ns : List GraphNode) (es : List GraphEdge)
    (hq : strTrim q ≠ "") :
    (∀ e ∈ es,
      (e.source ∈ (search q ns es).matched ∨ e.target ∈ (search q ns es).matched) →
        e.source ∈ (search q ns es).connected ∧
        e.target ∈ (search q ns es).connected ∧
        (e.source ++ "-" ++ e.target) ∈ (search q ns es).connectedEdges ∧
        (e.target ++ "-" ++ e.source) ∈ (search q ns es).connectedEdges) ∧
    (∀ c ∈ (search q ns es).connections, c.nodeType ≠ "ip") := by
  unfold search
  rw [if_neg hq]
  dsimp only
  constructor
  · intro e he htouch
    obtain ⟨l1, l2, rfl⟩ := List.append_of_mem he
    unfold expand
    rw [List.foldl_append, List.foldl_cons]
    refine ⟨foldl_expand_connected_mono l2 _ ?_, foldl_expand_connected_mono l2 _ ?_,
      foldl_expand_keys_mono l2 _ ?_, foldl_expand_keys_mono l2 _ ?_⟩ <;>
      unfold expandStep <;> rw [if_pos htouch]
    · exact mem_setAdd_self _ _
    · exact mem_setAdd_of_mem _ (mem_setAdd_self _ _)
    · exact mem_setAdd_of_mem _ (mem_setAdd_self _ _)
    · exact mem_setAdd_self _ _
  · intro c hc
    have hraw : c ∈ (expand ns es (matchedIds (strTrim (strLower q)) ns)).conns := by
      have h1 : c ∈ dedupByIdAux [] (expand ns es (matchedIds (strTrim (strLower q)) ns)).conns :=
        List.mem_of_mem_take hc
      exact (dedupByIdAux_sublist _ []).subset h1
    exact foldl_expand_conns_prop (fun d => d.nodeType ≠ "ip")
      (fun e cid cn d _ hcf => connFor_ne_ip hcf) es ⟨_, [], []⟩ (by simp) c hraw

/-- C3 counterexample to the claim as stated: with query "alpha", a
matched claim node and a `claim_ip` edge to an IP node, the IP node's id
IS in the connected set and the IP edge's key IS in connectedEdges. -/
theorem ip_in_connected_cex :
    ("ip_1" ∈ (search "alpha" cxNs cxEs).connected) ∧
    (cxNodeIp ∈ cxNs ∧ cxNodeIp.type = "ip") ∧
    ("claim_1-ip_1" ∈ (search "alpha" cxNs cxEs).connectedEdges) ∧
    (cxEdgeIp ∈ cxEs ∧ cxEdgeIp.type = "claim_ip" ∧
      cxEdgeIp.source ++ "-" ++ cxEdgeIp.target = "claim_1-ip_1") := by
  decide

/-- C3 witness for the amended claim at the concrete graph. -/
theorem one_hop_expansion_and_ip_witness :
    strTrim "alpha" ≠ "" ∧
    ((∀ e ∈ cxEs,
      (e.source ∈ (search "alpha" cxNs cxEs).matched ∨
        e.target ∈ (search "alpha" cxNs cxEs).matched) →
        e.source ∈ (search "alpha" cxNs cxEs).connected ∧
        e.target ∈ (search "alpha" cxNs cxEs).connected ∧
        (e.source ++ "-" ++ e.target) ∈ (search "alpha" cxNs cxEs).connectedEdges ∧
        (e.target ++ "-" ++ e.source) ∈ (search "alpha" cxNs cxEs).connectedEdges) ∧
    (∀ c ∈ (search "alpha" cxNs cxEs).connections, c.nodeType ≠ "ip")) :=
  ⟨by decide, one_hop_expansion_and_ip "alpha" cxNs cxEs (by decide)⟩

/-! ### Claim C6 -/

/-- C6: for every non-empty-query search result, the explanation list is
the raw connection list deduplicated by neighbour id keeping the first
entry produced, capped at 50 entries, and order preserving: it has at
most 50 entries, its neighbour ids are pairwise distinct, it is a
sublist of the raw list (so first-produced order is preserved), and each
kept entry is the first raw entry with its id. -/
theorem explanations_dedup_cap (q : String) (ns : List GraphNode) (es : List GraphEdge)
    (hq : strTrim q ≠ "") :
    (search q ns es).connections = uniqueConns (rawConns q ns es) ∧
    (search q ns es).connections.length ≤ 50 ∧
    (search q ns es).connections.Pairwise (fun a b => a.nodeId ≠ b.nodeId) ∧
    List.Sublist (search q ns es).connections (rawConns q ns es) ∧
    (∀ c ∈ (search q ns es).connections,
      (rawConns q ns es).find? (fun d => d.nodeId == c.nodeId) = some c) := by
  unfold search
  rw [if_neg hq]
  dsimp only
  refine ⟨rfl, List.length_take_le _ _, ?_, ?_, ?_⟩
  · exact ((dedupByIdAux_pairwise _ []).sublist (List.take_sublist _ _))
  · exact (List.take_sublist _ _).trans (dedupByIdAux_sublist _ [])
  · intro c hc
    exact (dedupByIdAux_mem _ [] (List.mem_of_mem_take hc)).2

/-- C6 witness at the concrete graph. -/
theorem explanations_dedup_cap_witness :
    strTrim "alpha" ≠ "" ∧
    ((search "alpha" cxNs cxEs).connections = uniqueConns (rawConns "alpha" cxNs cxEs) ∧
    (search "alpha" cxNs cxEs).connections.length ≤ 50 ∧
    (search "alpha" cxNs cxEs).connections.Pairwise (fun a b => a.nodeId ≠ b.nodeId) ∧
    List.Sublist (search "alpha" cxNs cxEs).connections (rawConns "alpha" cxNs cxEs) ∧
    (∀ c ∈ (search "alpha" cxNs cxEs).connections,
      (rawConns "alpha" cxNs cxEs).find? (fun d => d.nodeId == c.nodeId) = some c)) :=
  ⟨by decide, explanations_dedup_cap "alpha" cxNs cxEs (by decide)⟩

/-! ### Claim C7 -/

/-- C7: for `0 < n` and `i < n`, the seeded position of node `i` lies
exactly on the sphere of radius `max 30 (sqrt n * 2)`; its y-coordinate
is the linear ramp `r - (2r/n) * i`, staying inside `[-r, r]`; its x/z
coordinates are on the circle of radius `sqrt(r^2 - y^2)` at the golden
angle `theta_i = i * 2.399963229728653`. -/
theorem seeding_on_sphere (n i : ℕ) (hn : 0 < n) (hi : i < n) :
    (seedPos n i).x ^ 2 + (seedPos n i).y ^ 2 + (seedPos n i).z ^ 2 = seedRadius n ^ 2 ∧
    seedPos n i = ⟨Real.cos (seedTheta i) * Real.sqrt (seedRadius n ^ 2 - seedY n i ^ 2),
      seedY n i,
      Real.sin (seedTheta i) * Real.sqrt (seedRadius n ^ 2 - seedY n i ^ 2)⟩ ∧
    seedY n i = seedRadius n - 2 * seedRadius n / (n : ℝ) * (i : ℝ) ∧
    -(seedRadius n) ≤ seedY n i ∧ seedY n i ≤ seedRadius n ∧
    seedTheta i = (i : ℝ) * 2.399963229728653 ∧
    seedRadius n = max 30 (Real.sqrt (n : ℝ) * 2) := by
  have hr30 : (30 : ℝ) ≤ seedRadius n := le_max_left _ _
  have hr0 : (0 : ℝ) ≤ seedRadius n := by linarith
  have hn0 : ((n : ℝ)) ≠ 0 := Nat.cast_ne_zero.mpr hn.ne'
  have ht0 : (0 : ℝ) ≤ (i : ℝ) / (n : ℝ) := by positivity
  have ht1 : (i : ℝ) / (n : ℝ) ≤ 1 := by
    rw [div_le_one (by positivity)]
    exact_mod_cast hi.le
  have hyle : seedY n i ≤ seedRadius n := by
    unfold seedY
    nlinarith [mul_le_mul_of_nonneg_right (by linarith : (1 : ℝ) - (i : ℝ) / (n : ℝ) * 2 ≤ 1) hr0]
  have hyge : -(seedRadius n) ≤ seedY n i := by
    unfold seedY
    nlinarith [mul_le_mul_of_nonneg_right
      (by linarith : (-1 : ℝ) ≤ 1 - (i : ℝ) / (n : ℝ) * 2) hr0]
  have hy2 : seedY n i ^ 2 ≤ seedRadius n ^ 2 := sq_le_sq' hyge hyle
  have hnn : (0 : ℝ) ≤ seedRadius n * seedRadius n - seedY n i * seedY n i := by nlinarith
  have hsq : Real.sqrt (seedRadius n * seedRadius n - seedY n i * seedY n i) ^ 2 =
      seedRadius n * seedRadius n - seedY n i * seedY n i := Real.sq_sqrt hnn
  have hrw : seedRadius n * seedRadius n - seedY n i * seedY n i =
      seedRadius n ^ 2 - seedY n i ^ 2 := by ring
  refine ⟨?_, ?_, ?_, hyge, hyle, rfl, rfl⟩
  · show (Real.cos (seedTheta i) * Real.sqrt (seedRadius n * seedRadius n -
        seedY n i * seedY n i)) ^ 2 + seedY n i ^ 2 +
      (Real.sin (seedTheta i) * Real.sqrt (seedRadius n * seedRadius n -
        seedY n i * seedY n i)) ^ 2 = seedRadius n ^ 2
    have hpyth := Real.sin_sq_add_cos_sq (seedTheta i)
    nlinarith [hsq, hpyth]
  · show (⟨Real.cos (seedTheta i) * Real.sqrt (seedRadius n * seedRadius n -
        seedY n i * seedY n i), seedY n i,
      Real.sin (seedTheta i) * Real.sqrt (seedRadius n * seedRadius n -
        seedY n i * seedY n i)⟩ : Vec3) = _
    rw [hrw]
  · unfold seedY
    field_simp
    ring

/-- C7 witness at `n = 4`, `i = 1`. -/
theorem seeding_on_sphere_witness :
    0 < 4 ∧ 1 < 4 ∧
    ((seedPos 4 1).x ^ 2 + (seedPos 4 1).y ^ 2 + (seedPos 4 1).z ^ 2 = seedRadius 4 ^ 2 ∧
     seedPos 4 1 = ⟨Real.cos (seedTheta 1) * Real.sqrt (seedRadius 4 ^ 2 - seedY 4 1 ^ 2),
       seedY 4 1,
       Real.sin (seedTheta 1) * Real.sqrt (seedRadius 4 ^ 2 - seedY 4 1 ^ 2)⟩ ∧
     seedY 4 1 = seedRadius 4 - 2 * seedRadius 4 / ((4 : ℕ) : ℝ) * ((1 : ℕ) : ℝ) ∧
     -(seedRadius 4) ≤ seedY 4 1 ∧ seedY 4 1 ≤ seedRadius 4 ∧
     seedTheta 1 = ((1 : ℕ) : ℝ) * 2.399963229728653 ∧
     seedRadius 4 = max 30 (Real.sqrt ((4 : ℕ) : ℝ) * 2)) :=
  ⟨by norm_num, by norm_num, seeding_on_sphere 4 1 (by norm_num) (by norm_num)⟩

/-! ### Claim C8 -/

/-- C8: the layout computation (seeding plus the 50-iteration
relaxation) is a deterministic pure function of the node and edge
lists: two runs on the same lists agree on every node's position.  The
embedding is itself a function because the source loop contains no
randomness; this theorem states the two-run agreement pointwise. -/
theorem layout_deterministic (ns1 ns2 : List GraphNode) (es1 es2 : List GraphEdge)
    (hn : ns1 = ns2) (he : es1 = es2) :
    ∀ nid : String, assocGet (layout ns1 es1) nid = assocGet (layout ns2 es2) nid := by
  subst hn
  subst he
  intro nid
  rfl

/-- C8 witness: two runs over the concrete graph agree. -/
theorem layout_deterministic_witness :
    assocGet (layout cxNs cxEs) "claim_1" = assocGet (layout cxNs cxEs) "claim_1" :=
  layout_deterministic cxNs cxNs cxEs cxEs rfl rfl "claim_1"

/-! ### Claim C10 -/

/-- C10: the relaxation loop is total: the guarded distance
`length || 0.1` is strictly positive for every difference vector (so
the repulsion divisor `d * d` is nonzero), it equals `0.1` when two
nodes share a position, the normalisation divisor `length || 1` is
never zero, and an attraction edge with a missing endpoint position
leaves the force map unchanged. -/
theorem layout_guards_total :
    (∀ v : Vec3, 0 < vlenOr v) ∧
    (∀ v : Vec3, vlenOr v * vlenOr v ≠ 0) ∧
    (∀ p : Vec3, vlenOr (vsub p p) = 0.1) ∧
    (∀ v : Vec3, (if vlen v = 0 then (1 : ℝ) else vlen v) ≠ 0) ∧
    (∀ (ps fs : List (String × Vec3)) (e : GraphEdge),
      assocGet ps e.source = none ∨ assocGet ps e.target = none → edgeForce ps fs e = fs) := by
  have hpos : ∀ v : Vec3, 0 < vlenOr v := by
    intro v
    unfold vlenOr
    split_ifs with h
    · norm_num
    · exact lt_of_le_of_ne (Real.sqrt_nonneg _) (Ne.symm h)
  refine ⟨hpos, fun v => mul_ne_zero (hpos v).ne' (hpos v).ne', ?_, ?_, ?_⟩
  · intro p
    unfold vlenOr
    rw [if_pos]
    unfold vlen vsub
    simp
  · intro v
    split_ifs with h
    · norm_num
    · exact h
  · intro ps fs e h
    rcases h with h | h
    · unfold edgeForce
      rw [h]
    · unfold edgeForce
      rcases hs : assocGet ps e.source with _ | p1
      · rfl
      · rw [h]

/-- C10 witness at concrete vectors and an edge over an empty position
map. -/
theorem layout_guards_total_witness :
    0 < vlenOr ⟨1, 2, 3⟩ ∧
    vlenOr (vsub ⟨1, 2, 3⟩ ⟨1, 2, 3⟩) = 0.1 ∧
    edgeForce [] [] cxEdgeIp = [] :=
  ⟨layout_guards_total.1 ⟨1, 2, 3⟩, layout_guards_total.2.2.1 ⟨1, 2, 3⟩,
    layout_guards_total.2.2.2.2 [] [] cxEdgeIp (Or.inl rfl)⟩

/-- C1 witness: the bounds instantiated at the concrete ring graph and
claim, and the category boundary instantiated at score 70. -/
theorem risk_score_bounds_and_category_witness :
    (0 ≤ calculate_risk_score gRing5 ringC5 ∧ calculate_risk_score gRing5 ringC5 ≤ 100) ∧
    (get_risk_category 70 = "medium" ↔ 30 ≤ (70 : ℤ) ∧ (70 : ℤ) ≤ 70) :=
  ⟨risk_score_bounds_and_category.1 gRing5 ringC5,
    (risk_score_bounds_and_category.2.1 70).2.1⟩
